import Mathlib

/-!
Shallow embedding of the x32-reflector relay state engine.

The central data structure of the repository is the in-memory registry of
X32 source devices and their subscriber (redirect) targets.  Two
implementations exist in the source tree:

* `src/state/state.ts` — the `State` class: `_targets` is a
  `Record<string, Target[]>` mapping device names to target lists, and
  `_devices` is the list of registered devices.  Its methods `register`,
  `redirect`, `unredirect`, `renew`, `receive`, `checkin`, `cleanup`,
  `launch`, `stop` and `clients` are embedded below under the same names.
* `src/index.ts` — the module-level legacy entrypoint: `reflectorTargets`
  is a `Record<string, [ip, port, created][]>` keyed by `deviceToID`
  strings, with functions `register`, `remove`, `renew`, `x32Checkin`
  and `cleanup`; these are embedded with an `index` prefix on the name.

JavaScript millisecond timestamps are embedded as `Int` (so that
`Date.now() - checkin` subtraction carries no truncation), ports as `Nat`,
and a record object with string keys as an association list in insertion
order (JS object key order for the string keys used here).  Sockets and
the OSC codec are external collaborators: a `send` on a socket is
modelled as an emitted `Send` value, and the keep-alive packet body is an
opaque byte-list parameter.
-/

namespace X32Reflector

/-- Association-list model of a JavaScript `Record`: keys kept in insertion
order, at most one entry per key (all writes go through `aset`). -/
def alookup {κ α : Type} [DecidableEq κ] (m : List (κ × α)) (k : κ) : Option α :=
  match m with
  | [] => none
  | (k', v) :: rest => if k' = k then some v else alookup rest k

/-- Assignment `m[k] = v` on a JavaScript record: replaces the value at an
existing key, otherwise appends the new key at the end. -/
def aset {κ α : Type} [DecidableEq κ] (m : List (κ × α)) (k : κ) (v : α) : List (κ × α) :=
  match m with
  | [] => [(k, v)]
  | (k', v') :: rest => if k' = k then (k, v) :: rest else (k', v') :: aset rest k v

theorem alookup_aset_self {κ α : Type} [DecidableEq κ] (m : List (κ × α)) (k : κ) (v : α) :
    alookup (aset m k v) k = some v := by
  induction m with
  | nil => simp [aset, alookup]
  | cons p rest ih =>
    obtain ⟨k', v'⟩ := p
    by_cases h : k' = k
    · simp [aset, alookup, h]
    · simp [aset, alookup, h, ih]

theorem alookup_aset_ne {κ α : Type} [DecidableEq κ] (m : List (κ × α)) (k k' : κ) (v : α)
    (h : k' ≠ k) : alookup (aset m k v) k' = alookup m k' := by
  have hne : ¬ (k = k') := fun hh => h (Eq.symm hh)
  induction m with
  | nil => simp [aset, alookup, hne]
  | cons p rest ih =>
    obtain ⟨k₀, v₀⟩ := p
    by_cases hk : k₀ = k
    · subst hk
      simp [aset, alookup, hne]
    · by_cases hk' : k₀ = k'
      · simp [aset, alookup, hk, hk', h]
      · simp [aset, alookup, hk, hk', ih]

theorem mem_aset {κ α : Type} [DecidableEq κ] (m : List (κ × α)) (k : κ) (v : α)
    (p : κ × α) (hp : p ∈ aset m k v) : p = (k, v) ∨ p ∈ m := by
  induction m with
  | nil => simpa [aset] using hp
  | cons q rest ih =>
    obtain ⟨k₀, v₀⟩ := q
    by_cases hk : k₀ = k
    · simp [aset, hk] at hp
      rcases hp with h | h
      · exact Or.inl (by simp [h])
      · exact Or.inr (by simp [h])
    · simp [aset, hk] at hp
      rcases hp with h | h
      · exact Or.inr (by simp [h])
      · rcases ih h with h' | h'
        · exact Or.inl h'
        · exact Or.inr (by simp [h'])

theorem alookup_mem {κ α : Type} [DecidableEq κ] (m : List (κ × α)) (k : κ) (v : α)
    (h : alookup m k = some v) : (k, v) ∈ m := by
  induction m with
  | nil => simp [alookup] at h
  | cons p rest ih =>
    obtain ⟨k₀, v₀⟩ := p
    by_cases hk : k₀ = k
    · subst hk
      simp [alookup] at h
      simp [h]
    · simp [alookup, hk] at h
      simp [ih h]

theorem aset_eq_of_alookup_eq {κ α : Type} [DecidableEq κ] (m : List (κ × α)) (k : κ) (v : α)
    (h : alookup m k = some v) : aset m k v = m := by
  induction m with
  | nil => simp [alookup] at h
  | cons p rest ih =>
    obtain ⟨k₀, v₀⟩ := p
    by_cases hk : k₀ = k
    · subst hk
      simp [alookup] at h
      simp [aset, h]
    · simp [alookup, hk] at h
      simp [aset, hk, ih h]

/-- Target of a redirection (src/state/state.ts `Target`): destination ip
and port, and the last checkin (renewal) timestamp in milliseconds. -/
structure Target where
  ip : String
  port : Nat
  checkin : Int
deriving Repr, DecidableEq

/-- Configured X32 device entry (src/config/configuration.ts
`X32Instance`): name, ip and port. -/
structure X32Instance where
  name : String
  ip : String
  port : Nat
deriving Repr, DecidableEq

/-- Value-level content of the `State` class of src/state/state.ts:
`_targets` (a `Record<string, Target[]>`), `_devices`, whether `_interval`
is set (the keep-alive scheduler is running), and the configured timeout
in minutes.  Sockets are external transport and carry no registry state. -/
structure State where
  targets : List (String × List Target)
  devices : List X32Instance
  intervalRunning : Bool
  timeout : Int
deriving Repr, DecidableEq

/-- An observable outbound UDP send: destination ip, destination port and
the raw payload bytes. -/
structure Send where
  ip : String
  port : Nat
  payload : List Nat
deriving Repr, DecidableEq

/-- List of targets currently held for a device name, empty when the name
has no entry (the source would read `undefined`). -/
def targetsOf (s : State) (name : String) : List Target :=
  (alookup s.targets name).getD []

/-- Embedding of `State.register` (state.ts lines 170-181), socket binding
aside: pushes the device onto `_devices` and resets
`_targets[device.name]` to the empty list.  No duplicate-name check is
performed by the source. -/
def State.register (s : State) (device : X32Instance) : State :=
  { s with
    devices := s.devices ++ [device],
    targets := aset s.targets device.name [] }

/-- Embedding of `State.redirect` (state.ts lines 191-200): throws
`Unknown device` when the name has no targets entry, otherwise pushes a
new target with `checkin = Date.now()`.  No duplicate check is performed. -/
def State.redirect (s : State) (frm toIp : String) (port : Nat) (now : Int) :
    Except String Unit × State :=
  match alookup s.targets frm with
  | none => (.error "Unknown device", s)
  | some l =>
    (.ok (), { s with targets := aset s.targets frm (l ++ [⟨toIp, port, now⟩]) })

/-- Embedding of `State.unredirect` (state.ts lines 208-214): filters out
every target with `ip === to && port === port`, assigns the filtered list,
then throws `Unknown redirect target` when the length did not change. -/
def State.unredirect (s : State) (frm toIp : String) (port : Nat) :
    Except String Unit × State :=
  match alookup s.targets frm with
  | none => (.error "Unknown device", s)
  | some l =>
    let filtered := l.filter (fun r => !(r.ip = toIp && r.port = port))
    let s' := { s with targets := aset s.targets frm filtered }
    if filtered.length = l.length then (.error "Unknown redirect target", s')
    else (.ok (), s')

/-- Embedding of `State.renew` (state.ts lines 222-233): iterates over the
device's targets, setting `checkin = Date.now()` on every entry whose ip
and port match, then throws `Unknown redirect target` when none matched. -/
def State.renew (s : State) (frm toIp : String) (port : Nat) (now : Int) :
    Except String Unit × State :=
  match alookup s.targets frm with
  | none => (.error "Unknown device", s)
  | some l =>
    let updated := l.map (fun e =>
      if e.ip = toIp && e.port = port then { e with checkin := now } else e)
    let s' := { s with targets := aset s.targets frm updated }
    if l.any (fun e => e.ip = toIp && e.port = port) then (.ok (), s')
    else (.error "Unknown redirect target", s')

/-- Embedding of `State.receive` (state.ts lines 242-247): returns early
when the source device has no targets entry, otherwise sends the received
message unmodified to every registered target of that device. -/
def State.receive (s : State) (source : X32Instance) (message : List Nat) : List Send :=
  match alookup s.targets source.name with
  | none => []
  | some l => l.map (fun e => ⟨e.ip, e.port, message⟩)

/-- Embedding of `State.checkin` (state.ts lines 125-139): sends the OSC
`/xremote` keep-alive packet (an opaque byte list produced by the excluded
codec, passed as `keepAlive`) to every device in `_devices`. -/
def State.checkin (s : State) (keepAlive : List Nat) : List Send :=
  s.devices.map (fun d => ⟨d.ip, d.port, keepAlive⟩)

/-- Single step of `State.cleanup` for one device name: filters the
targets recorded under that name, keeping entries with
`now - checkin < timeout * 60000`.  The source indexes
`this._targets[key.name]` directly and every registered device name has an
entry; an absent name is left untouched here. -/
def cleanupKey (now ttl : Int) (m : List (String × List Target)) (name : String) :
    List (String × List Target) :=
  match alookup m name with
  | none => m
  | some l => aset m name (l.filter (fun t => now - t.checkin < ttl))

/-- Embedding of `State.cleanup` (state.ts lines 253-259): for every
registered device, removes the targets that have not checked in within
`timeout * 60000` milliseconds. -/
def State.cleanup (s : State) (now : Int) : State :=
  { s with
    targets := s.devices.foldl (fun m d => cleanupKey now (s.timeout * 60000) m d.name) s.targets }

/-- Embedding of `State.launch` (state.ts lines 145-152): throws when the
interval is already set, otherwise marks the scheduler as running. -/
def State.launch (s : State) : Except String Unit × State :=
  if s.intervalRunning then (.error "Interval has already been launched", s)
  else (.ok (), { s with intervalRunning := true })

/-- Embedding of `State.stop` (state.ts lines 158-163): throws when no
interval is set, otherwise clears it. -/
def State.stop (s : State) : Except String Unit × State :=
  if s.intervalRunning then (.ok (), { s with intervalRunning := false })
  else (.error "Interval has not been set, have you called launch()", s)

/-- Embedding of the interval callback installed by `State.launch`
(state.ts lines 148-151): `this.checkin(); this.cleanup();` — the
keep-alive sends run first, the sweep second, within one tick. -/
def intervalTick (s : State) (keepAlive : List Nat) (now : Int) : List Send × State :=
  let checkinOut := State.checkin s keepAlive
  let swept := State.cleanup s now
  (checkinOut, swept)

/-- Embedding of `State.clients` (state.ts lines 287-290): throws on an
unknown device, otherwise returns its target list. -/
def State.clients (s : State) (device : String) : Except String (List Target) :=
  match alookup s.targets device with
  | none => .error "Unknown device"
  | some l => .ok l

/-! Model of the module-level entrypoint `src/index.ts`.  There
`reflectorTargets : Record<string, [string, number, number][]>` is keyed
by `deviceToID(device) = name#ip#port`; device names match
`^[A-Za-z0-9_-]+$` (no `#`), so a key splits back into its three
components exactly, and the key string is embedded as the structured
triple `DeviceID`. -/

/-- Entry of an index.ts `reflectorTargets` list: the tuple
`[ip, port, created]`. -/
structure RTarget where
  ip : String
  port : Nat
  created : Int
deriving Repr, DecidableEq

/-- Structured form of a `deviceToID` key string `name#ip#port`. -/
structure DeviceID where
  name : String
  ip : String
  port : Nat
deriving Repr, DecidableEq

/-- State of `reflectorTargets` in index.ts. -/
abbrev RMap := List (DeviceID × List RTarget)

/-- Embedding of `findKeyOrFail` (index.ts lines 83-98): finds the first
key of `reflectorTargets` whose split ip and port components equal the
requested x32 ip and port. -/
def findKey (m : RMap) (x32IP : String) (x32Port : Nat) : Option DeviceID :=
  (m.map Prod.fst).find? (fun k => k.ip = x32IP && k.port = x32Port)

/-- Embedding of the HTTP `register` handler (index.ts lines 111-132):
resolves the device key, rejects when the exact `(ip, port)` pair is
already present in that key's list, otherwise appends
`[ip, port, Date.now()]`. -/
def indexRegister (m : RMap) (x32IP : String) (x32Port : Nat) (ip : String) (port : Nat)
    (now : Int) : Except String Unit × RMap :=
  match findKey m x32IP x32Port with
  | none => (.error "Unknown X32 IP and Port combination", m)
  | some key =>
    let l := (alookup m key).getD []
    match l.find? (fun t => t.ip = ip && t.port = port) with
    | some _ => (.error "Device is already registered on this device", m)
    | none => (.ok (), aset m key (l ++ [⟨ip, port, now⟩]))

/-- Embedding of the HTTP `remove` handler (index.ts lines 145-162):
resolves the device key, assigns the list filtered with the source's
predicate `tIp !== ip && tPort !== port`, and reports an error when the
length did not change. -/
def indexRemove (m : RMap) (x32IP : String) (x32Port : Nat) (ip : String) (port : Nat) :
    Except String Unit × RMap :=
  match findKey m x32IP x32Port with
  | none => (.error "Unknown X32 IP and Port combination", m)
  | some key =>
    let l := (alookup m key).getD []
    let filtered := l.filter (fun t => !(t.ip = ip) && !(t.port = port))
    let m' := aset m key filtered
    if l.length = filtered.length then (.error "Unknown IP and Port combination", m')
    else (.ok (), m')

/-- Replacement of the first entry matching `(ip, port)` with the same
entry carrying `created = now`; models the in-place `find[2] = Date.now()`
of the index.ts `renew` handler. -/
def renewFirst (l : List RTarget) (ip : String) (port : Nat) (now : Int) : List RTarget :=
  match l with
  | [] => []
  | t :: rest =>
    if t.ip = ip && t.port = port then { t with created := now } :: rest
    else t :: renewFirst rest ip port now

/-- Embedding of the HTTP `renew` handler (index.ts lines 240-257):
resolves the device key, errors when no entry matches `(ip, port)`, and
otherwise sets the found (first) entry's timestamp to `Date.now()`. -/
def indexRenew (m : RMap) (x32IP : String) (x32Port : Nat) (ip : String) (port : Nat)
    (now : Int) : Except String Unit × RMap :=
  match findKey m x32IP x32Port with
  | none => (.error "Unknown X32 IP and Port combination", m)
  | some key =>
    let l := (alookup m key).getD []
    match l.find? (fun t => t.ip = ip && t.port = port) with
    | none => (.error "Unknown IP and Port combination", m)
    | some _ => (.ok (), aset m key (renewFirst l ip port now))

/-- Embedding of `cleanup` (index.ts lines 441-449): for every key of
`reflectorTargets`, keeps the entries with
`Date.now() - created < timeout * 60000`. -/
def indexCleanup (m : RMap) (now ttl : Int) : RMap :=
  m.map (fun kv => (kv.1, kv.2.filter (fun t => now - t.created < ttl)))

/-- Embedding of `x32Checkin` (index.ts lines 53-60): sends the opaque
keep-alive packet to every device of `x32Devices`. -/
def x32Checkin (devices : List X32Instance) (keepAlive : List Nat) : List Send :=
  devices.map (fun d => ⟨d.ip, d.port, keepAlive⟩)

/-- Tick of the keep-alive interval installed by the index.ts entrypoint
(line 486: `setInterval(x32Checkin, 9000)`): it only sends the checkins
and does not touch `reflectorTargets`; the sweep runs on a separate
60-second interval (line 490). -/
def indexCheckinTick (devices : List X32Instance) (m : RMap) (keepAlive : List Nat) :
    List Send × RMap :=
  (x32Checkin devices keepAlive, m)

/-! Model of the duplicate-name validation in `loadConfiguration`
(src/config/configuration.ts lines 97-104): a configuration whose x32
array fails `names.every((v, i, a) => a.indexOf(v) === i)` is rejected. -/

/-- Embedding of JavaScript `Array.prototype.indexOf` restricted to the
present-element case: index of the first occurrence (length if absent —
JS would return -1, but the check below only evaluates it on elements of
the list, which are always present). -/
def jsIndexOf (l : List String) (v : String) : Nat :=
  match l with
  | [] => 0
  | x :: xs => if x = v then 0 else jsIndexOf xs v + 1

/-- Embedding of the name-uniqueness validation of `loadConfiguration`:
`x32.map((e) => e.name).every((v, i, a) => a.indexOf(v) === i)`. -/
def namesUniqueCheck (names : List String) : Bool :=
  names.enum.all (fun p => jsIndexOf names p.2 == p.1)

/-! Sequences of subscriber-registry operations, for the per-target
timestamp monotonicity invariant.  Every operation is stamped with the
JavaScript clock value `Date.now()` observed while it runs (unused by
`removeTarget`, which never reads the clock). -/

/-- Subscriber-registry operation together with its clock stamp. -/
inductive Op where
  | addTarget (frm toIp : String) (port : Nat) (now : Int)
  | renewTarget (frm toIp : String) (port : Nat) (now : Int)
  | removeTarget (frm toIp : String) (port : Nat) (now : Int)
  | sweepExpired (now : Int)
deriving Repr, DecidableEq

/-- Clock stamp of an operation. -/
def Op.time : Op → Int
  | .addTarget _ _ _ now => now
  | .renewTarget _ _ _ now => now
  | .removeTarget _ _ _ now => now
  | .sweepExpired now => now

/-- Effect of one operation on the registry state.  A thrown error leaves
the state exactly as returned by the corresponding method (state.ts
assigns before throwing in `unredirect` and `renew`, and throws before
assigning everywhere else). -/
def applyOp (op : Op) (s : State) : State :=
  match op with
  | .addTarget frm toIp port now => (State.redirect s frm toIp port now).2
  | .renewTarget frm toIp port now => (State.renew s frm toIp port now).2
  | .removeTarget frm toIp port _ => (State.unredirect s frm toIp port).2
  | .sweepExpired now => State.cleanup s now

/-- Runs a sequence of operations left to right. -/
def runOps (ops : List Op) (s : State) : State :=
  ops.foldl (fun s op => applyOp op s) s

/-- Every recorded checkin timestamp in the registry is at most `t`. -/
def stateLE (s : State) (t : Int) : Bool :=
  s.targets.all (fun kv => kv.2.all (fun tgt => tgt.checkin ≤ t))

/-- Clock stamps of a sequence are non-decreasing and bounded below by
`t` (time never runs backwards between operations). -/
def timesMono : Int → List Op → Bool
  | _, [] => true
  | t, op :: rest => (t ≤ op.time) && timesMono op.time rest

/-! Sample states used to evaluate the definitions at concrete inputs. -/

/-- Registry with one device `dev` holding one target `127.0.0.1:9000`
renewed at time 100, timeout 1 minute. -/
def sampleState : State :=
  { targets := [("dev", [⟨"127.0.0.1", 9000, 100⟩])],
    devices := [⟨"dev", "10.1.10.20", 10023⟩],
    intervalRunning := false,
    timeout := 1 }

/-- Registry with one device `dev` holding one target `1.1.1.1:9`. -/
def oneTargetState : State :=
  { targets := [("dev", [⟨"1.1.1.1", 9, 0⟩])],
    devices := [⟨"dev", "10.1.10.20", 10023⟩],
    intervalRunning := false,
    timeout := 10 }

/-- Registry with one device `dev` whose collection holds the pair
`(1.1.1.1, 9)` twice (reachable because `State.redirect` never
de-duplicates). -/
def dupPairState : State :=
  { targets := [("dev", [⟨"1.1.1.1", 9, 10⟩, ⟨"1.1.1.1", 9, 20⟩])],
    devices := [⟨"dev", "10.1.10.20", 10023⟩],
    intervalRunning := false,
    timeout := 10 }

/-- Legacy-path reflector map with one device key holding two targets
sharing the address `192.168.0.5` on distinct ports. -/
def twoPortMap : RMap :=
  [(⟨"dev", "10.1.10.20", 10023⟩, [⟨"192.168.0.5", 8000, 0⟩, ⟨"192.168.0.5", 8001, 0⟩])]

/-- Legacy-path reflector map with one device key holding one target last
renewed at time 0. -/
def staleMap : RMap :=
  [(⟨"dev", "10.1.10.20", 10023⟩, [⟨"127.0.0.1", 9000, 0⟩])]

/-! Supporting lemmas about the per-device sweep fold of `State.cleanup`. -/

theorem cleanupKey_alookup_other (now ttl : Int) (m : List (String × List Target))
    (k name : String) (h : name ≠ k) :
    alookup (cleanupKey now ttl m k) name = alookup m name := by
  unfold cleanupKey
  cases alookup m k with
  | none => rfl
  | some l => exact alookup_aset_ne m k name _ h

theorem cleanupKey_alookup_self (now ttl : Int) (m : List (String × List Target))
    (name : String) (l : List Target) (h : alookup m name = some l) :
    alookup (cleanupKey now ttl m name) name
      = some (l.filter (fun t => now - t.checkin < ttl)) := by
  unfold cleanupKey
  rw [h]
  exact alookup_aset_self m name _

theorem foldl_cleanupKey_stable (now ttl : Int) (ds : List X32Instance)
    (m : List (String × List Target)) (name : String) (L : List Target)
    (hL : alookup m name = some L)
    (hfix : L.filter (fun t => now - t.checkin < ttl) = L) :
    alookup (ds.foldl (fun m d => cleanupKey now ttl m d.name) m) name = some L := by
  induction ds generalizing m with
  | nil => simpa using hL
  | cons d ds ih =>
    simp only [List.foldl_cons]
    apply ih
    by_cases hd : name = d.name
    · subst hd
      rw [cleanupKey_alookup_self now ttl m _ L hL, hfix]
    · rw [cleanupKey_alookup_other now ttl m d.name name hd]
      exact hL

theorem foldl_cleanupKey_mem (now ttl : Int) (ds : List X32Instance)
    (m : List (String × List Target)) (name : String) (l : List Target)
    (hmem : name ∈ ds.map X32Instance.name)
    (hl : alookup m name = some l) :
    alookup (ds.foldl (fun m d => cleanupKey now ttl m d.name) m) name
      = some (l.filter (fun t => now - t.checkin < ttl)) := by
  induction ds generalizing m l with
  | nil => simp at hmem
  | cons d ds ih =>
    simp only [List.foldl_cons]
    by_cases hd : name = d.name
    · subst hd
      have hstep := cleanupKey_alookup_self now ttl m d.name l hl
      apply foldl_cleanupKey_stable now ttl ds _ d.name _ hstep
      exact List.filter_eq_self.2 (fun a ha => (List.mem_filter.1 ha).2)
    · have hstep : alookup (cleanupKey now ttl m d.name) name = some l := by
        rw [cleanupKey_alookup_other now ttl m d.name name hd]
        exact hl
      have hmem' : name ∈ ds.map X32Instance.name := by
        simp only [List.map_cons, List.mem_cons] at hmem
        exact hmem.resolve_left hd
      exact ih _ _ hmem' hstep

/-- Claim C1: for every registered device, `State.cleanup` at time `now`
removes a target exactly when `now - lastRenewal ≥ timeout * 60000`; in
particular a target renewed at `t` survives a sweep at `t + ttl - 1` and
is gone after a sweep at `t + ttl + 1`. -/
theorem cleanup_removes_expired_iff (s : State) (name : String) (l : List Target)
    (hdev : name ∈ s.devices.map X32Instance.name)
    (hl : alookup s.targets name = some l) :
    (∀ (now : Int) (tgt : Target),
        tgt ∈ targetsOf (State.cleanup s now) name ↔
          tgt ∈ l ∧ ¬ (now - tgt.checkin ≥ s.timeout * 60000)) ∧
    (∀ tgt ∈ l,
        tgt ∈ targetsOf (State.cleanup s (tgt.checkin + s.timeout * 60000 - 1)) name ∧
        tgt ∉ targetsOf (State.cleanup s (tgt.checkin + s.timeout * 60000 + 1)) name) := by
  have hmain : ∀ (now : Int) (tgt : Target),
      tgt ∈ targetsOf (State.cleanup s now) name ↔
        tgt ∈ l ∧ ¬ (now - tgt.checkin ≥ s.timeout * 60000) := by
    intro now tgt
    have h := foldl_cleanupKey_mem now (s.timeout * 60000) s.devices s.targets name l hdev hl
    unfold State.cleanup targetsOf
    simp only [h, Option.getD_some, List.mem_filter]
    constructor
    · rintro ⟨h1, h2⟩
      exact ⟨h1, by simpa using Int.not_le.2 (by simpa using h2)⟩
    · rintro ⟨h1, h2⟩
      exact ⟨h1, by simpa using Int.not_le.1 h2⟩
  refine ⟨hmain, ?_⟩
  intro tgt ht
  constructor
  · exact (hmain _ tgt).2 ⟨ht, by omega⟩
  · intro hmem
    have := ((hmain _ tgt).1 hmem).2
    omega

/-- Concrete instantiation of `cleanup_removes_expired_iff`: the target of
`sampleState` renewed at 100 with a 1-minute timeout survives the sweep at
`100 + 60000 - 1` and is removed by the sweep at `100 + 60000 + 1`. -/
theorem cleanup_removes_expired_iff_witness :
    (⟨"127.0.0.1", 9000, 100⟩ : Target)
        ∈ targetsOf (State.cleanup sampleState (100 + 1 * 60000 - 1)) "dev" ∧
    (⟨"127.0.0.1", 9000, 100⟩ : Target)
        ∉ targetsOf (State.cleanup sampleState (100 + 1 * 60000 + 1)) "dev" :=
  (cleanup_removes_expired_iff sampleState "dev" [⟨"127.0.0.1", 9000, 100⟩]
      (by decide) (by decide)).2 ⟨"127.0.0.1", 9000, 100⟩ (by decide)

/-- Claim C4: on receipt of a datagram on a registered device's socket,
`State.receive` emits the payload byte-for-byte unmodified to every
target currently in that device's collection and to no other destination;
with zero current targets the send list is empty. -/
theorem receive_forwards_to_all_targets (s : State) (source : X32Instance)
    (message : List Nat) :
    State.receive s source message
      = (targetsOf s source.name).map (fun e => ⟨e.ip, e.port, message⟩) := by
  unfold State.receive targetsOf
  cases alookup s.targets source.name <;> simp

/-- Claim C8: `State.launch` fails loudly when the scheduler is already
running and `State.stop` fails loudly when it is idle; in either failing
case the device registry and all subscriber collections are unchanged. -/
theorem launch_stop_wrong_state_fail (s : State) :
    (s.intervalRunning = true →
      State.launch s = (.error "Interval has already been launched", s)) ∧
    (s.intervalRunning = false →
      State.stop s = (.error "Interval has not been set, have you called launch()", s)) := by
  constructor <;> intro h <;> simp [State.launch, State.stop, h]

/-- Concrete instantiation of `launch_stop_wrong_state_fail`: a running
scheduler rejects `launch` and an idle one rejects `stop`, keeping the
state intact. -/
theorem launch_stop_wrong_state_fail_witness :
    State.launch { sampleState with intervalRunning := true }
      = (.error "Interval has already been launched",
         { sampleState with intervalRunning := true }) ∧
    State.stop sampleState
      = (.error "Interval has not been set, have you called launch()", sampleState) :=
  ⟨(launch_stop_wrong_state_fail { sampleState with intervalRunning := true }).1 rfl,
   (launch_stop_wrong_state_fail sampleState).2 rfl⟩

/-- Claim C2, counterexample: `State.redirect` accepts a target pair that
is already present for the device — the call succeeds and the collection
ends up holding the pair `(1.1.1.1, 9)` twice. -/
theorem redirect_accepts_duplicate_pair :
    (State.redirect oneTargetState "dev" "1.1.1.1" 9 5).1 = .ok () ∧
    targetsOf (State.redirect oneTargetState "dev" "1.1.1.1" 9 5).2 "dev"
      = [⟨"1.1.1.1", 9, 0⟩, ⟨"1.1.1.1", 9, 5⟩] := by
  exact ⟨rfl, rfl⟩

/-- Claim C6, counterexample: with the pair `(1.1.1.1, 9)` present twice,
`State.renew` succeeds and overwrites the timestamp of both entries, not
only the first match. -/
theorem renew_updates_every_match :
    (State.renew dupPairState "dev" "1.1.1.1" 9 30).1 = .ok () ∧
    targetsOf (State.renew dupPairState "dev" "1.1.1.1" 9 30).2 "dev"
      = [⟨"1.1.1.1", 9, 30⟩, ⟨"1.1.1.1", 9, 30⟩] := by
  exact ⟨rfl, rfl⟩

/-- Claim C7, counterexample: `State.register` accepts a device whose
name is already registered — no error is possible (the method is total)
and the registry gains a second `dev` entry. -/
theorem register_accepts_duplicate_name :
    (State.register (State.register ⟨[], [], false, 10⟩ ⟨"dev", "1.2.3.4", 10023⟩)
        ⟨"dev", "5.6.7.8", 10024⟩).devices
      = [⟨"dev", "1.2.3.4", 10023⟩, ⟨"dev", "5.6.7.8", 10024⟩] := by
  rfl

/-- Claim C3: evaluation of the legacy `remove` handler at the failing
input.  Removing `(192.168.0.5, 8000)` also deletes `(192.168.0.5, 8001)`
because the filter keeps only entries differing in **both** ip and port
(`tIp !== ip && tPort !== port`), while the handler's own documentation
and the spec promise that only one (the first) exact match is removed. -/
theorem indexRemove_removes_port_sharing_entry :
    (indexRemove twoPortMap "10.1.10.20" 10023 "192.168.0.5" 8000).1 = .ok () ∧
    (alookup (indexRemove twoPortMap "10.1.10.20" 10023 "192.168.0.5" 8000).2
        ⟨"dev", "10.1.10.20", 10023⟩).getD []
      = [] := by
  exact ⟨rfl, rfl⟩

/-- Claim C5, counterexample: in the index.ts entrypoint the keep-alive
tick does not sweep.  At time 600000 with a 1-minute timeout the target
renewed at 0 is expired (`600000 - 0 ≥ 60000`) and a sweep would remove
it, yet after the keep-alive tick it is still registered, so the sweep is
not invoked within that tick. -/
theorem indexCheckinTick_does_not_sweep :
    (indexCheckinTick [⟨"dev", "10.1.10.20", 10023⟩] staleMap []).2 = staleMap ∧
    (alookup staleMap ⟨"dev", "10.1.10.20", 10023⟩).getD []
      = [⟨"127.0.0.1", 9000, 0⟩] ∧
    ((600000 : Int) - 0 ≥ 1 * 60000) ∧
    (alookup (indexCleanup staleMap 600000 (1 * 60000)) ⟨"dev", "10.1.10.20", 10023⟩).getD []
      = [] := by
  refine ⟨rfl, rfl, by norm_num, rfl⟩

/-- Claim C5, amended: a tick of the scheduler installed by
`State.launch` first sends the keep-alive to every registered device
(one send per device entry, computed before any sweeping) and then runs
the sweep on the registry, all within the one tick; for every registered
device the post-tick collection is exactly the pre-tick collection with
the expired targets removed. -/
theorem intervalTick_checkin_then_sweep (s : State) (keepAlive : List Nat) (now : Int) :
    (intervalTick s keepAlive now).1 = State.checkin s keepAlive ∧
    (intervalTick s keepAlive now).1
      = s.devices.map (fun d => ⟨d.ip, d.port, keepAlive⟩) ∧
    (intervalTick s keepAlive now).2 = State.cleanup s now ∧
    (∀ name l, name ∈ s.devices.map X32Instance.name →
      alookup s.targets name = some l →
      targetsOf (intervalTick s keepAlive now).2 name
        = l.filter (fun t => now - t.checkin < s.timeout * 60000)) := by
  refine ⟨rfl, rfl, rfl, ?_⟩
  intro name l hname hl
  have h := foldl_cleanupKey_mem now (s.timeout * 60000) s.devices s.targets name l hname hl
  unfold intervalTick State.cleanup targetsOf
  simp only [h, Option.getD_some]

/-- Concrete instantiation of `intervalTick_checkin_then_sweep`: one tick
over `sampleState` at time 70000 emits the keep-alive to the device and
leaves its (expired) target swept. -/
theorem intervalTick_checkin_then_sweep_witness :
    (intervalTick sampleState [42] 70000).1 = [⟨"10.1.10.20", 10023, [42]⟩] ∧
    targetsOf (intervalTick sampleState [42] 70000).2 "dev" = [] :=
  ⟨(intervalTick_checkin_then_sweep sampleState [42] 70000).2.1,
   (intervalTick_checkin_then_sweep sampleState [42] 70000).2.2.2 "dev"
      [⟨"127.0.0.1", 9000, 100⟩] (by decide) (by decide)⟩

/-- Claim C2, amended: the legacy HTTP `register` handler rejects an
`(ip, port)` pair already present for the resolved device and leaves the
reflector map unchanged. -/
theorem indexRegister_rejects_duplicate (m : RMap) (x32IP : String) (x32Port : Nat)
    (ip : String) (port : Nat) (now : Int) (key : DeviceID) (l : List RTarget) (t : RTarget)
    (hkey : findKey m x32IP x32Port = some key)
    (hl : alookup m key = some l)
    (ht : t ∈ l) (hip : t.ip = ip) (hport : t.port = port) :
    indexRegister m x32IP x32Port ip port now
      = (.error "Device is already registered on this device", m) := by
  unfold indexRegister
  rw [hkey]
  simp only [hl, Option.getD_some]
  cases hfind : l.find? (fun t => t.ip = ip && t.port = port) with
  | none =>
    exfalso
    have := List.find?_eq_none.mp hfind t ht
    simp [hip, hport] at this
  | some u => rfl

/-- Concrete instantiation of `indexRegister_rejects_duplicate`: adding
`(127.0.0.1, 9000)` to `staleMap`, where it is already present, errors
and leaves the map as it was. -/
theorem indexRegister_rejects_duplicate_witness :
    indexRegister staleMap "10.1.10.20" 10023 "127.0.0.1" 9000 500
      = (.error "Device is already registered on this device", staleMap) :=
  indexRegister_rejects_duplicate staleMap "10.1.10.20" 10023 "127.0.0.1" 9000 500
    ⟨"dev", "10.1.10.20", 10023⟩ [⟨"127.0.0.1", 9000, 0⟩] ⟨"127.0.0.1", 9000, 0⟩
    (by decide) (by decide) (by decide) rfl rfl

/-- Claim C6, amended: `State.renew` stamps `now` on every entry of the
device's collection whose `(address, port)` matches — hence exactly the
first match whenever the collection holds no duplicate pair — leaves
non-matching entries and every other device's collection untouched, never
lowers a timestamp when the clock is not behind it, and when nothing
matches it fails with the unknown-target error leaving the collection
value unchanged. -/
theorem renew_updates_matches_only (s : State) (frm toIp : String) (port : Nat) (now : Int)
    (l : List Target) (hl : alookup s.targets frm = some l) :
    (targetsOf (State.renew s frm toIp port now).2 frm
        = l.map (fun e =>
            if e.ip = toIp && e.port = port then { e with checkin := now } else e)) ∧
    (∀ name, name ≠ frm →
        alookup (State.renew s frm toIp port now).2.targets name
          = alookup s.targets name) ∧
    (∀ e ∈ l, ¬ (e.ip = toIp ∧ e.port = port) →
        (if e.ip = toIp && e.port = port then { e with checkin := now } else e) = e) ∧
    (∀ e ∈ l, e.checkin ≤ now →
        e.checkin
          ≤ ((if e.ip = toIp && e.port = port then { e with checkin := now } else e) :
              Target).checkin) ∧
    ((l.any (fun e => e.ip = toIp && e.port = port)) = false →
        (State.renew s frm toIp port now).1 = .error "Unknown redirect target" ∧
        (State.renew s frm toIp port now).2.targets = s.targets) := by
  have hform : (State.renew s frm toIp port now).2
      = { s with targets := aset s.targets frm (l.map (fun e =>
            if e.ip = toIp && e.port = port then { e with checkin := now } else e)) } := by
    unfold State.renew
    rw [hl]
    by_cases h : l.any (fun e => e.ip = toIp && e.port = port) <;> simp [h]
  refine ⟨?_, ?_, ?_, ?_, ?_⟩
  · rw [hform]
    unfold targetsOf
    simp [alookup_aset_self]
  · intro name hname
    rw [hform]
    exact alookup_aset_ne _ _ _ _ hname
  · intro e _ hmatch
    have : ¬ (e.ip = toIp && e.port = port) = true := by
      simp only [Bool.and_eq_true, decide_eq_true_eq]
      exact fun hh => hmatch ⟨by simpa using hh.1, by simpa using hh.2⟩
    simp [this]
  · intro e _ hle
    by_cases hmatch : (e.ip = toIp && e.port = port) = true
    · simp [hmatch, hle]
    · simp [hmatch]
  · intro hnone
    have hnomatch : ∀ e ∈ l, ¬ ((e.ip = toIp && e.port = port) = true) := by
      simpa using List.any_eq_false.mp hnone
    have hmap : l.map (fun e =>
        if e.ip = toIp && e.port = port then { e with checkin := now } else e) = l := by
      have h1 : l.map (fun e =>
          if e.ip = toIp && e.port = port then { e with checkin := now } else e)
            = l.map id :=
        List.map_congr_left (fun e he => by simp [hnomatch e he])
      rw [h1, List.map_id]
    have hfst : (State.renew s frm toIp port now).1 = .error "Unknown redirect target" := by
      unfold State.renew
      rw [hl]
      simp [hnone]
    refine ⟨hfst, ?_⟩
    rw [hform]
    simp only
    rw [hmap]
    exact aset_eq_of_alookup_eq s.targets frm l hl

/-- Concrete instantiation of `renew_updates_matches_only`: renewing the
single target of `oneTargetState` at time 50 stamps it with 50 and keeps
every other device key untouched. -/
theorem renew_updates_matches_only_witness :
    targetsOf (State.renew oneTargetState "dev" "1.1.1.1" 9 50).2 "dev"
      = [⟨"1.1.1.1", 9, 50⟩] ∧
    alookup (State.renew oneTargetState "dev" "1.1.1.1" 9 50).2.targets "other"
      = alookup oneTargetState.targets "other" := by
  have h := renew_updates_matches_only oneTargetState "dev" "1.1.1.1" 9 50
    [⟨"1.1.1.1", 9, 0⟩] (by decide)
  exact ⟨h.1.trans (by decide), h.2.1 "other" (by decide)⟩

theorem jsIndexOf_le (l : List String) (v : String) (k : Nat) (h : l[k]? = some v) :
    jsIndexOf l v ≤ k := by
  induction l generalizing k with
  | nil => simp at h
  | cons x xs ih =>
    by_cases hx : x = v
    · simp [jsIndexOf, hx]
    · cases k with
      | zero =>
        rw [List.getElem?_cons_zero] at h
        exact absurd (Option.some.inj h) hx
      | succ k =>
        rw [List.getElem?_cons_succ] at h
        simp only [jsIndexOf, if_neg hx]
        exact Nat.add_le_add_right (ih k h) 1

theorem jsIndexOf_getElem (l : List String) (v : String) (h : v ∈ l) :
    l[jsIndexOf l v]? = some v := by
  induction l with
  | nil => simp at h
  | cons x xs ih =>
    by_cases hx : x = v
    · simp [jsIndexOf, hx]
    · have hmem : v ∈ xs := by
        rcases List.mem_cons.mp h with h' | h'
        · exact absurd h'.symm hx
        · exact h'
      simp only [jsIndexOf, if_neg hx, List.getElem?_cons_succ]
      exact ih hmem

/-- Claim C7, amended: `State.register` performs no duplicate-name check
(a duplicate registration succeeds, appending a second device entry and
resetting the name's collection); name uniqueness is enforced only by
`loadConfiguration`, whose validation accepts an x32 name list exactly
when its names are pairwise distinct. -/
theorem register_unchecked_config_enforces_unique (names : List String) :
    (∀ (s : State) (d : X32Instance),
        (State.register s d).devices = s.devices ++ [d] ∧
        targetsOf (State.register s d) d.name = []) ∧
    (namesUniqueCheck names = true ↔ names.Nodup) := by
  constructor
  · intro s d
    refine ⟨rfl, ?_⟩
    unfold targetsOf State.register
    simp [alookup_aset_self]
  · have hcheck : namesUniqueCheck names = true ↔
        ∀ p ∈ names.enum, jsIndexOf names p.2 = p.1 := by
      unfold namesUniqueCheck
      rw [List.all_eq_true]
      constructor
      · intro h p hp
        simpa using h p hp
      · intro h p hp
        simpa using h p hp
    rw [hcheck]
    constructor
    · intro h
      rw [List.nodup_iff_getElem?_ne_getElem?]
      intro i j hij hjlen heq
      obtain ⟨v, hv⟩ : ∃ v, names[j]? = some v := by
        rw [List.getElem?_eq_getElem hjlen]
        exact ⟨names[j], rfl⟩
      have hvi : names[i]? = some v := heq ▸ hv
      have h1 : jsIndexOf names v ≤ i := jsIndexOf_le names v i hvi
      have h2 : jsIndexOf names v = j :=
        h (j, v) (List.mk_mem_enum_iff_getElem?.2 hv)
      omega
    · intro hnd p hp
      obtain ⟨i, v⟩ := p
      have hv : names[i]? = some v := List.mk_mem_enum_iff_getElem?.1 hp
      have hile : i < names.length := (List.getElem?_eq_some.1 hv).1
      have hmem : v ∈ names := by
        obtain ⟨hlt, hget⟩ := List.getElem?_eq_some.1 hv
        exact hget ▸ List.getElem_mem hlt
      have h1 : jsIndexOf names v ≤ i := jsIndexOf_le names v i hv
      have h2 : names[jsIndexOf names v]? = some v := jsIndexOf_getElem names v hmem
      rcases Nat.lt_or_ge (jsIndexOf names v) i with hlt | hge
      · exfalso
        exact (List.nodup_iff_getElem?_ne_getElem?.1 hnd (jsIndexOf names v) i hlt hile)
          (h2.trans hv.symm)
      · exact Nat.le_antisymm h1 hge

/-- Claim C10: registering a device under an already-registered name
succeeds, resets that name's subscriber collection to the empty list
(`clients` returns it empty), and appends a second device entry, so a
keep-alive pass sends once per entry. -/
theorem register_existing_name_resets (s : State) (d : X32Instance) (keepAlive : List Nat)
    (hdup : d.name ∈ s.devices.map X32Instance.name) :
    (State.register s d).devices = s.devices ++ [d] ∧
    State.clients (State.register s d) d.name = .ok [] ∧
    targetsOf (State.register s d) d.name = [] ∧
    State.checkin (State.register s d) keepAlive
      = s.devices.map (fun dd => ⟨dd.ip, dd.port, keepAlive⟩)
          ++ [⟨d.ip, d.port, keepAlive⟩] := by
  refine ⟨rfl, ?_, ?_, ?_⟩
  · unfold State.clients State.register
    simp [alookup_aset_self]
  · unfold targetsOf State.register
    simp [alookup_aset_self]
  · unfold State.checkin State.register
    simp

/-! Structural lemmas describing the targets map after each registry
operation, and preservation of the checkin upper bound `stateLE`. -/

theorem redirect_targets_eq (s : State) (frm toIp : String) (port : Nat) (now : Int) :
    (State.redirect s frm toIp port now).2.targets
      = match alookup s.targets frm with
        | none => s.targets
        | some l => aset s.targets frm (l ++ [⟨toIp, port, now⟩]) := by
  unfold State.redirect
  cases alookup s.targets frm <;> rfl

theorem unredirect_targets_eq (s : State) (frm toIp : String) (port : Nat) :
    (State.unredirect s frm toIp port).2.targets
      = match alookup s.targets frm with
        | none => s.targets
        | some l => aset s.targets frm (l.filter (fun r => !(r.ip = toIp && r.port = port))) := by
  unfold State.unredirect
  cases alookup s.targets frm with
  | none => rfl
  | some l =>
    simp only
    split <;> rfl

theorem renew_targets_eq (s : State) (frm toIp : String) (port : Nat) (now : Int) :
    (State.renew s frm toIp port now).2.targets
      = match alookup s.targets frm with
        | none => s.targets
        | some l => aset s.targets frm (l.map (fun e =>
            if e.ip = toIp && e.port = port then { e with checkin := now } else e)) := by
  unfold State.renew
  cases alookup s.targets frm with
  | none => rfl
  | some l =>
    simp only
    split <;> rfl

theorem stateLE_iff (s : State) (t : Int) :
    stateLE s t = true ↔ ∀ kv ∈ s.targets, ∀ tgt ∈ kv.2, tgt.checkin ≤ t := by
  unfold stateLE
  simp [List.all_eq_true]

theorem stateLE_mono (s : State) (t t' : Int) (h : stateLE s t = true) (htt : t ≤ t') :
    stateLE s t' = true := by
  rw [stateLE_iff] at h ⊢
  intro kv hkv tgt htgt
  exact le_trans (h kv hkv tgt htgt) htt

theorem mem_targetsOf (s : State) (name : String) (tgt : Target)
    (h : tgt ∈ targetsOf s name) :
    ∃ l, alookup s.targets name = some l ∧ tgt ∈ l := by
  unfold targetsOf at h
  cases hl : alookup s.targets name with
  | none => rw [hl] at h; simp at h
  | some l => rw [hl] at h; exact ⟨l, rfl, h⟩

theorem stateLE_mem (s : State) (t : Int) (name : String) (l : List Target) (tgt : Target)
    (hle : stateLE s t = true) (hl : alookup s.targets name = some l) (htgt : tgt ∈ l) :
    tgt.checkin ≤ t := by
  rw [stateLE_iff] at hle
  exact hle (name, l) (alookup_mem s.targets name l hl) tgt htgt

theorem cleanupKey_mem_subset (now ttl : Int) (m : List (String × List Target))
    (k name : String) (l' : List Target) (tgt : Target)
    (hl' : alookup (cleanupKey now ttl m k) name = some l') (htgt : tgt ∈ l') :
    ∃ l, alookup m name = some l ∧ tgt ∈ l := by
  by_cases hk : name = k
  · subst hk
    unfold cleanupKey at hl'
    cases hm : alookup m name with
    | none =>
      simp only [hm] at hl'
      exact absurd hl' (by simp)
    | some l =>
      simp only [hm] at hl'
      rw [alookup_aset_self] at hl'
      refine ⟨l, rfl, ?_⟩
      obtain rfl := Option.some.inj hl'
      exact (List.mem_filter.1 htgt).1
  · rw [cleanupKey_alookup_other now ttl m k name hk] at hl'
    exact ⟨l', hl', htgt⟩

theorem cleanup_targetsOf_subset (s : State) (now : Int) (name : String) (tgt : Target)
    (h : tgt ∈ targetsOf (State.cleanup s now) name) : tgt ∈ targetsOf s name := by
  obtain ⟨l', hl', htgt⟩ := mem_targetsOf _ name tgt h
  unfold State.cleanup at hl'
  simp only at hl'
  suffices hgen : ∀ (ds : List X32Instance) (m : List (String × List Target))
      (l' : List Target),
      alookup (ds.foldl (fun m d => cleanupKey now (s.timeout * 60000) m d.name) m) name
        = some l' → tgt ∈ l' → ∃ l, alookup m name = some l ∧ tgt ∈ l by
    obtain ⟨l, hl, htl⟩ := hgen s.devices s.targets l' hl' htgt
    unfold targetsOf
    rw [hl]
    exact htl
  intro ds
  induction ds with
  | nil =>
    intro m l' hl' htgt'
    exact ⟨l', hl', htgt'⟩
  | cons d ds ih =>
    intro m l' hl' htgt'
    simp only [List.foldl_cons] at hl'
    obtain ⟨l2, hl2, htl2⟩ := ih _ l' hl' htgt'
    exact cleanupKey_mem_subset now (s.timeout * 60000) m d.name name l2 tgt hl2 htl2

theorem mapLE_aset (m : List (String × List Target)) (t : Int) (frm : String)
    (L : List Target)
    (hm : ∀ kv ∈ m, ∀ tgt ∈ kv.2, tgt.checkin ≤ t)
    (hL : ∀ tgt ∈ L, tgt.checkin ≤ t) :
    ∀ kv ∈ aset m frm L, ∀ tgt ∈ kv.2, tgt.checkin ≤ t := by
  intro kv hkv tgt htgt
  rcases mem_aset m frm L kv hkv with h | h
  · subst h
    exact hL tgt htgt
  · exact hm kv h tgt htgt

theorem mapLE_cleanupKey (now ttl t : Int) (m : List (String × List Target)) (k : String)
    (hm : ∀ kv ∈ m, ∀ tgt ∈ kv.2, tgt.checkin ≤ t) :
    ∀ kv ∈ cleanupKey now ttl m k, ∀ tgt ∈ kv.2, tgt.checkin ≤ t := by
  unfold cleanupKey
  cases hmk : alookup m k with
  | none => exact hm
  | some l =>
    apply mapLE_aset m t k _ hm
    intro tgt htgt
    exact hm (k, l) (alookup_mem m k l hmk) tgt (List.mem_filter.1 htgt).1

theorem applyOp_stateLE (op : Op) (s : State) (hle : stateLE s op.time = true) :
    stateLE (applyOp op s) op.time = true := by
  rw [stateLE_iff] at hle
  rw [stateLE_iff]
  cases op with
  | addTarget frm toIp port now =>
    simp only [applyOp, Op.time] at hle ⊢
    intro kv hkv
    rw [redirect_targets_eq] at hkv
    cases hm : alookup s.targets frm with
    | none =>
      rw [hm] at hkv
      exact hle kv hkv
    | some l =>
      rw [hm] at hkv
      refine mapLE_aset s.targets now frm _ hle ?_ kv hkv
      intro tgt htgt
      rcases List.mem_append.1 htgt with h | h
      · exact hle (frm, l) (alookup_mem s.targets frm l hm) tgt h
      · simp only [List.mem_singleton] at h
        subst h
        exact le_refl now
  | renewTarget frm toIp port now =>
    simp only [applyOp, Op.time] at hle ⊢
    intro kv hkv
    rw [renew_targets_eq] at hkv
    cases hm : alookup s.targets frm with
    | none =>
      rw [hm] at hkv
      exact hle kv hkv
    | some l =>
      rw [hm] at hkv
      refine mapLE_aset s.targets now frm _ hle ?_ kv hkv
      intro tgt htgt
      obtain ⟨e, he, rfl⟩ := List.mem_map.1 htgt
      by_cases hmatch : (e.ip = toIp && e.port = port) = true
      · simp [hmatch]
      · simp only [hmatch, if_false, Bool.false_eq_true]
        exact hle (frm, l) (alookup_mem s.targets frm l hm) e he
  | removeTarget frm toIp port now =>
    simp only [applyOp, Op.time] at hle ⊢
    intro kv hkv
    rw [unredirect_targets_eq] at hkv
    cases hm : alookup s.targets frm with
    | none =>
      rw [hm] at hkv
      exact hle kv hkv
    | some l =>
      rw [hm] at hkv
      refine mapLE_aset s.targets now frm _ hle ?_ kv hkv
      intro tgt htgt
      exact hle (frm, l) (alookup_mem s.targets frm l hm) tgt (List.mem_filter.1 htgt).1
  | sweepExpired now =>
    simp only [applyOp, Op.time] at hle ⊢
    intro kv hkv
    unfold State.cleanup at hkv
    simp only at hkv
    revert kv
    suffices hgen : ∀ (ds : List X32Instance) (m : List (String × List Target)),
        (∀ kv ∈ m, ∀ tgt ∈ kv.2, tgt.checkin ≤ now) →
        ∀ kv ∈ ds.foldl (fun m d => cleanupKey now (s.timeout * 60000) m d.name) m,
          ∀ tgt ∈ kv.2, tgt.checkin ≤ now by
      exact fun kv hkv => hgen s.devices s.targets hle kv hkv
    intro ds
    induction ds with
    | nil => exact fun m hm => hm
    | cons d ds ih =>
      intro m hm
      simp only [List.foldl_cons]
      exact ih _ (mapLE_cleanupKey now (s.timeout * 60000) now m d.name hm)

theorem applyOp_target_origin (op : Op) (s : State) (name : String) (tgt' : Target)
    (hmem : tgt' ∈ targetsOf (applyOp op s) name) :
    (∃ tgt ∈ targetsOf s name,
        tgt.ip = tgt'.ip ∧ tgt.port = tgt'.port ∧ tgt.checkin ≤ tgt'.checkin) ∨
    tgt'.checkin = op.time := by
  have hself : tgt' ∈ targetsOf s name →
      (∃ tgt ∈ targetsOf s name,
          tgt.ip = tgt'.ip ∧ tgt.port = tgt'.port ∧ tgt.checkin ≤ tgt'.checkin) ∨
      tgt'.checkin = op.time :=
    fun h => Or.inl ⟨tgt', h, rfl, rfl, le_refl _⟩
  cases op with
  | addTarget frm toIp port now =>
    simp only [applyOp] at hmem
    unfold targetsOf at hmem
    rw [redirect_targets_eq] at hmem
    cases hm : alookup s.targets frm with
    | none =>
      rw [hm] at hmem
      exact hself hmem
    | some l =>
      rw [hm] at hmem
      by_cases hname : name = frm
      · subst hname
        rw [alookup_aset_self] at hmem
        simp only [Option.getD_some] at hmem
        rcases List.mem_append.1 hmem with h | h
        · refine hself ?_
          unfold targetsOf
          rw [hm]
          exact h
        · simp only [List.mem_singleton] at h
          subst h
          exact Or.inr rfl
      · rw [alookup_aset_ne _ _ _ _ hname] at hmem
        exact hself hmem
  | renewTarget frm toIp port now =>
    simp only [applyOp] at hmem
    unfold targetsOf at hmem
    rw [renew_targets_eq] at hmem
    cases hm : alookup s.targets frm with
    | none =>
      rw [hm] at hmem
      exact hself hmem
    | some l =>
      rw [hm] at hmem
      by_cases hname : name = frm
      · subst hname
        rw [alookup_aset_self] at hmem
        simp only [Option.getD_some] at hmem
        obtain ⟨e, he, heq⟩ := List.mem_map.1 hmem
        by_cases hmatch : (e.ip = toIp && e.port = port) = true
        · rw [if_pos hmatch] at heq
          subst heq
          exact Or.inr rfl
        · rw [if_neg hmatch] at heq
          subst heq
          refine hself ?_
          unfold targetsOf
          rw [hm]
          exact he
      · rw [alookup_aset_ne _ _ _ _ hname] at hmem
        exact hself hmem
  | removeTarget frm toIp port now =>
    simp only [applyOp] at hmem
    unfold targetsOf at hmem
    rw [unredirect_targets_eq] at hmem
    cases hm : alookup s.targets frm with
    | none =>
      rw [hm] at hmem
      exact hself hmem
    | some l =>
      rw [hm] at hmem
      by_cases hname : name = frm
      · subst hname
        rw [alookup_aset_self] at hmem
        simp only [Option.getD_some] at hmem
        refine hself ?_
        unfold targetsOf
        rw [hm]
        exact (List.mem_filter.1 hmem).1
      · rw [alookup_aset_ne _ _ _ _ hname] at hmem
        exact hself hmem
  | sweepExpired now =>
    simp only [applyOp] at hmem
    exact hself (cleanup_targetsOf_subset s now name tgt' hmem)

theorem runOps_take_stateLE (ops : List Op) (s0 : State) (t0 : Int)
    (hmono : timesMono t0 ops = true) (hle : stateLE s0 t0 = true)
    (k : Nat) (op : Op) (hop : ops[k]? = some op) :
    stateLE (runOps (ops.take k) s0) op.time = true := by
  induction ops generalizing s0 t0 k with
  | nil => simp at hop
  | cons op0 rest ih =>
    unfold timesMono at hmono
    rw [Bool.and_eq_true] at hmono
    obtain ⟨h01, h02⟩ := hmono
    have h01' : t0 ≤ op0.time := by simpa using h01
    cases k with
    | zero =>
      rw [List.getElem?_cons_zero] at hop
      have hop' : op0 = op := Option.some.inj hop
      subst hop'
      simpa [runOps] using stateLE_mono s0 t0 op0.time hle h01'
    | succ k =>
      rw [List.getElem?_cons_succ] at hop
      have hle0 : stateLE s0 op0.time = true := stateLE_mono s0 t0 op0.time hle h01'
      have hle1 : stateLE (applyOp op0 s0) op0.time = true := applyOp_stateLE op0 s0 hle0
      have hstep := ih (applyOp op0 s0) op0.time h02 hle1 k hop
      simpa [runOps, List.take_succ_cons, List.foldl_cons] using hstep

/-- Claim C9: across any sequence of registry operations whose clock
stamps never decrease, every target present after a step either descends
from an entry with the same `(address, port)` and an equal-or-smaller
`lastRenewal`, or was freshly stamped with the step's clock value, and all
timestamps in the pre-step state are bounded by that clock value — so a
target's `lastRenewal` never decreases during its lifetime. -/
theorem lastRenewal_monotone (ops : List Op) (s0 : State) (t0 : Int)
    (hmono : timesMono t0 ops = true) (hle : stateLE s0 t0 = true)
    (k : Nat) (op : Op) (hop : ops[k]? = some op)
    (name : String) (tgt' : Target)
    (hmem : tgt' ∈ targetsOf (runOps (ops.take (k + 1)) s0) name) :
    ((∃ tgt ∈ targetsOf (runOps (ops.take k) s0) name,
        tgt.ip = tgt'.ip ∧ tgt.port = tgt'.port ∧ tgt.checkin ≤ tgt'.checkin) ∨
      tgt'.checkin = op.time) ∧
    stateLE (runOps (ops.take k) s0) op.time = true := by
  have hpre := runOps_take_stateLE ops s0 t0 hmono hle k op hop
  have htake : ops.take (k + 1) = ops.take k ++ [op] := by
    rw [List.take_succ, hop]
    rfl
  have hrun : runOps (ops.take (k + 1)) s0 = applyOp op (runOps (ops.take k) s0) := by
    rw [htake]
    unfold runOps
    rw [List.foldl_append]
    rfl
  rw [hrun] at hmem
  exact ⟨applyOp_target_origin op _ name tgt' hmem, hpre⟩

/-- Concrete instantiation of `lastRenewal_monotone`: renewing the target
of `oneTargetState` at time 50 yields an entry descending from the
original (timestamp 0 ≤ 50) or stamped at 50, with the pre-state bounded
by 50. -/
theorem lastRenewal_monotone_witness :
    ((∃ tgt ∈ targetsOf (runOps (List.take 0
          [Op.renewTarget "dev" "1.1.1.1" 9 50]) oneTargetState) "dev",
        tgt.ip = "1.1.1.1" ∧ tgt.port = 9 ∧ tgt.checkin ≤ 50) ∨
      (50 : Int) = (Op.renewTarget "dev" "1.1.1.1" 9 50).time) ∧
    stateLE (runOps (List.take 0 [Op.renewTarget "dev" "1.1.1.1" 9 50]) oneTargetState)
      (Op.renewTarget "dev" "1.1.1.1" 9 50).time = true :=
  lastRenewal_monotone [Op.renewTarget "dev" "1.1.1.1" 9 50] oneTargetState 0
    (by decide) (by decide) 0 (Op.renewTarget "dev" "1.1.1.1" 9 50) rfl
    "dev" ⟨"1.1.1.1", 9, 50⟩ (by decide)

/-- Concrete instantiation of `register_existing_name_resets`:
re-registering `dev` over `sampleState` discards its previous target and
doubles the keep-alive sends. -/
theorem register_existing_name_resets_witness :
    (State.register sampleState ⟨"dev", "10.9.9.9", 10024⟩).devices
        = sampleState.devices ++ [⟨"dev", "10.9.9.9", 10024⟩] ∧
    State.clients (State.register sampleState ⟨"dev", "10.9.9.9", 10024⟩) "dev" = .ok [] ∧
    targetsOf (State.register sampleState ⟨"dev", "10.9.9.9", 10024⟩) "dev" = [] ∧
    State.checkin (State.register sampleState ⟨"dev", "10.9.9.9", 10024⟩) [47]
      = sampleState.devices.map (fun dd => ⟨dd.ip, dd.port, [47]⟩)
          ++ [⟨"10.9.9.9", 10024, [47]⟩] :=
  register_existing_name_resets sampleState ⟨"dev", "10.9.9.9", 10024⟩ [47] (by decide)

end X32Reflector
